import Mathlib

/-!
Verification of the KFParticle estimator core (KFParticleBaseSIMD.cxx) against its
natural-language specification.

The SIMD lane type `float_v` of the source is modelled at lane width 1 over an
arbitrary `LinearOrderedField K` (instantiated at `ℚ` for executable witnesses and
at `ℝ` where genuine trigonometry is needed).  Masked lane assignment
`x(mask) = v` becomes `if mask then v else x`.  External math capabilities of the
source (`KFPMath::Sin`, `KFPMath::Cos`, `sqrt`, the field provider, the virtual
`Transport`/`GetMeasurement` methods) are passed as explicit function parameters,
as the spec directs (they are external collaborators).  Floating-point rounding is
not modelled: all claims here are about the value-level algebra of the source, in
exact field arithmetic.
-/

set_option linter.unusedVariables false
set_option linter.unusedSectionVars false

namespace KFParticleSpec

variable {K : Type*} [LinearOrderedField K]

/-- Packed lower-triangular index table of the source (`KFParticleBaseSIMD::IJ`):
the 8x8 symmetric covariance is stored as 36 entries, entry (i,j) with i ≥ j at
position i(i+1)/2+j.  `sym8 i j` is `IJ(i,j)` tabulated. -/
def sym8 : Fin 8 → Fin 8 → Fin 36 :=
  ![![0, 1, 3, 6, 10, 15, 21, 28],
    ![1, 2, 4, 7, 11, 16, 22, 29],
    ![3, 4, 5, 8, 12, 17, 23, 30],
    ![6, 7, 8, 9, 13, 18, 24, 31],
    ![10, 11, 12, 13, 14, 19, 25, 32],
    ![15, 16, 17, 18, 19, 20, 26, 33],
    ![21, 22, 23, 24, 25, 26, 27, 34],
    ![28, 29, 30, 31, 32, 33, 34, 35]]

/-- Row index of packed entry k: the unique i ≥ j with k = i(i+1)/2+j. -/
def row36 : Fin 36 → Fin 8 :=
  ![0, 1, 1, 2, 2, 2, 3, 3, 3, 3, 4, 4, 4, 4, 4, 5, 5, 5, 5, 5, 5,
    6, 6, 6, 6, 6, 6, 6, 7, 7, 7, 7, 7, 7, 7, 7]

/-- Column index of packed entry k. -/
def col36 : Fin 36 → Fin 8 :=
  ![0, 0, 1, 0, 1, 2, 0, 1, 2, 3, 0, 1, 2, 3, 4, 0, 1, 2, 3, 4, 5,
    0, 1, 2, 3, 4, 5, 6, 0, 1, 2, 3, 4, 5, 6, 7]

/-- Unpack the 36-entry packed covariance into the symmetric 8x8 matrix it encodes
(entry (i,j) of the matrix is packed entry `IJ(i,j)`, cf. `sym8`). -/
def unpack (C : Fin 36 → K) : Matrix (Fin 8) (Fin 8) K :=
  Matrix.of
    ![![C 0, C 1, C 3, C 6, C 10, C 15, C 21, C 28],
      ![C 1, C 2, C 4, C 7, C 11, C 16, C 22, C 29],
      ![C 3, C 4, C 5, C 8, C 12, C 17, C 23, C 30],
      ![C 6, C 7, C 8, C 9, C 13, C 18, C 24, C 31],
      ![C 10, C 11, C 12, C 13, C 14, C 19, C 25, C 32],
      ![C 15, C 16, C 17, C 18, C 19, C 20, C 26, C 33],
      ![C 21, C 22, C 23, C 24, C 25, C 26, C 27, C 34],
      ![C 28, C 29, C 30, C 31, C 32, C 33, C 34, C 35]]

/-- The speed of light constant of the source, `kCLight = 0.000299792458`. -/
def kCLight : K := 299792458 / 1000000000000

/-- Straight-line transport (`KFParticleBaseSIMD::TransportLine`): mean and packed
covariance after moving by the path parameter dS with no field. -/
def transportLine (fP : Fin 8 → K) (fC : Fin 36 → K) (dS : K) :
    (Fin 8 → K) × (Fin 36 → K) :=
  let P : Fin 8 → K :=
    ![fP 0 + dS * fP 3, fP 1 + dS * fP 4, fP 2 + dS * fP 5,
      fP 3, fP 4, fP 5, fP 6, fP 7]
  let c6 := fC 6 + dS * fC 9
  let c11 := fC 11 + dS * fC 14
  let c17 := fC 17 + dS * fC 20
  let sc13 := dS * fC 13
  let sc18 := dS * fC 18
  let sc19 := dS * fC 19
  let C7 := fC 7 + sc13
  let C8 := fC 8 + sc18
  let C12 := fC 12 + sc19
  let C : Fin 36 → K :=
    ![fC 0 + dS * (fC 6 + c6),
      fC 1 + dS * (fC 10 + C7),
      fC 2 + dS * (fC 11 + c11),
      fC 3 + dS * (fC 15 + C8),
      fC 4 + dS * (fC 16 + C12),
      fC 5 + dS * (fC 17 + c17),
      c6, C7, C8, fC 9,
      fC 10 + sc13, c11, C12, fC 13, fC 14,
      fC 15 + sc18, fC 16 + sc19, c17, fC 18, fC 19, fC 20,
      fC 21 + dS * fC 24, fC 22 + dS * fC 25, fC 23 + dS * fC 26,
      fC 24, fC 25, fC 26, fC 27,
      fC 28 + dS * fC 31, fC 29 + dS * fC 32, fC 30 + dS * fC 33,
      fC 31, fC 32, fC 33, fC 34, fC 35]
  (P, C)

/-! ### Uniform-Bz transport (`KFParticleBaseSIMD::TransportBz`)

The source computes, from the scaled field `b`, the path parameter `t = dS`, the
bend angle `bs = b*t` and its sine `s` / cosine `c`, the helix coefficients
`sB`, `cB`, then fills the output mean `p[8]` and packed covariance `e[36]`.
The covariance formulas of the source use the local abbreviations `mJC13` ...
`mJC44` and reuse the already-computed entries `e[17]`, `e[18]`, `e[19]`; those
abbreviations are modelled as the small definitions below, and each covariance
entry `e[k]` of the source is the definition `bzEk`. -/

def mJC13 (s c sB cB : K) (fC : Fin 36 → K) : K := fC 7 - cB * fC 9 + sB * fC 13

def mJC14 (s c sB cB : K) (fC : Fin 36 → K) : K := fC 11 - cB * fC 13 + sB * fC 14

def mJC23 (t : K) (fC : Fin 36 → K) : K := fC 8 + t * fC 18

def mJC24 (t : K) (fC : Fin 36 → K) : K := fC 12 + t * fC 19

def mJC33 (s c : K) (fC : Fin 36 → K) : K := c * fC 9 + s * fC 13

def mJC34 (s c : K) (fC : Fin 36 → K) : K := c * fC 13 + s * fC 14

def mJC43 (s c : K) (fC : Fin 36 → K) : K := -s * fC 9 + c * fC 13

def mJC44 (s c : K) (fC : Fin 36 → K) : K := -s * fC 13 + c * fC 14

def bzE0 (s c sB cB t : K) (fC : Fin 36 → K) : K :=
  fC 0 + 2 * (sB * fC 6 + cB * fC 10) + (sB * fC 9 + 2 * (cB * fC 13)) * sB + cB * cB * fC 14

def bzE1 (s c sB cB t : K) (fC : Fin 36 → K) : K :=
  fC 1 - cB * fC 6 + sB * fC 10 + mJC13 s c sB cB fC * sB + mJC14 s c sB cB fC * cB

def bzE2 (s c sB cB t : K) (fC : Fin 36 → K) : K :=
  fC 2 - cB * fC 7 + sB * fC 11 - mJC13 s c sB cB fC * cB + mJC14 s c sB cB fC * sB

def bzE3 (s c sB cB t : K) (fC : Fin 36 → K) : K :=
  fC 3 + t * fC 15 + mJC23 t fC * sB + mJC24 t fC * cB

def bzE4 (s c sB cB t : K) (fC : Fin 36 → K) : K :=
  fC 4 + t * fC 16 - mJC23 t fC * cB + mJC24 t fC * sB

def bzE17 (s c sB cB t : K) (fC : Fin 36 → K) : K := fC 17 + fC 20 * t

def bzE5 (s c sB cB t : K) (fC : Fin 36 → K) : K :=
  fC 5 + (fC 17 + bzE17 s c sB cB t fC) * t

def bzE6 (s c sB cB t : K) (fC : Fin 36 → K) : K :=
  c * fC 6 + s * fC 10 + mJC33 s c fC * sB + mJC34 s c fC * cB

def bzE7 (s c sB cB t : K) (fC : Fin 36 → K) : K :=
  c * fC 7 + s * fC 11 - mJC33 s c fC * cB + mJC34 s c fC * sB

def bzE18 (s c sB cB t : K) (fC : Fin 36 → K) : K := fC 18 * c + fC 19 * s

def bzE8 (s c sB cB t : K) (fC : Fin 36 → K) : K :=
  c * fC 8 + s * fC 12 + bzE18 s c sB cB t fC * t

def bzE9 (s c sB cB t : K) (fC : Fin 36 → K) : K := mJC33 s c fC * c + mJC34 s c fC * s

def bzE10 (s c sB cB t : K) (fC : Fin 36 → K) : K :=
  -s * fC 6 + c * fC 10 + mJC43 s c fC * sB + mJC44 s c fC * cB

def bzE11 (s c sB cB t : K) (fC : Fin 36 → K) : K :=
  -s * fC 7 + c * fC 11 - mJC43 s c fC * cB + mJC44 s c fC * sB

def bzE19 (s c sB cB t : K) (fC : Fin 36 → K) : K := -(fC 18) * s + fC 19 * c

def bzE12 (s c sB cB t : K) (fC : Fin 36 → K) : K :=
  -s * fC 8 + c * fC 12 + bzE19 s c sB cB t fC * t

def bzE13 (s c sB cB t : K) (fC : Fin 36 → K) : K := mJC43 s c fC * c + mJC44 s c fC * s

def bzE14 (s c sB cB t : K) (fC : Fin 36 → K) : K := -(mJC43 s c fC) * s + mJC44 s c fC * c

def bzE15 (s c sB cB t : K) (fC : Fin 36 → K) : K := fC 15 + fC 18 * sB + fC 19 * cB

def bzE16 (s c sB cB t : K) (fC : Fin 36 → K) : K := fC 16 - fC 18 * cB + fC 19 * sB

def bzE21 (s c sB cB t : K) (fC : Fin 36 → K) : K := fC 21 + fC 25 * cB + fC 24 * sB

def bzE22 (s c sB cB t : K) (fC : Fin 36 → K) : K := fC 22 - fC 24 * cB + fC 25 * sB

def bzE23 (s c sB cB t : K) (fC : Fin 36 → K) : K := fC 23 + fC 26 * t

def bzE24 (s c sB cB t : K) (fC : Fin 36 → K) : K := c * fC 24 + s * fC 25

def bzE25 (s c sB cB t : K) (fC : Fin 36 → K) : K := c * fC 25 - fC 24 * s

def bzE28 (s c sB cB t : K) (fC : Fin 36 → K) : K := fC 28 + fC 32 * cB + fC 31 * sB

def bzE29 (s c sB cB t : K) (fC : Fin 36 → K) : K := fC 29 - fC 31 * cB + fC 32 * sB

def bzE30 (s c sB cB t : K) (fC : Fin 36 → K) : K := fC 30 + fC 33 * t

def bzE31 (s c sB cB t : K) (fC : Fin 36 → K) : K := c * fC 31 + s * fC 32

def bzE32 (s c sB cB t : K) (fC : Fin 36 → K) : K := c * fC 32 - s * fC 31

/-- Output mean `p[8]` of `TransportBz`, as a function of the computed sine `s`,
cosine `c`, helix coefficients `sB`, `cB` and the path parameter `t = dS`. -/
def bzMean (s c sB cB t : K) (fP : Fin 8 → K) : Fin 8 → K :=
  ![fP 0 + sB * fP 3 + cB * fP 4,
    fP 1 - cB * fP 3 + sB * fP 4,
    fP 2 + t * fP 5,
    c * fP 3 + s * fP 4,
    -s * fP 3 + c * fP 4,
    fP 5, fP 6, fP 7]

/-- Output packed covariance `e[36]` of `TransportBz`. -/
def bzCov (s c sB cB t : K) (fC : Fin 36 → K) : Fin 36 → K :=
  ![bzE0 s c sB cB t fC, bzE1 s c sB cB t fC, bzE2 s c sB cB t fC, bzE3 s c sB cB t fC,
    bzE4 s c sB cB t fC, bzE5 s c sB cB t fC, bzE6 s c sB cB t fC, bzE7 s c sB cB t fC,
    bzE8 s c sB cB t fC, bzE9 s c sB cB t fC, bzE10 s c sB cB t fC, bzE11 s c sB cB t fC,
    bzE12 s c sB cB t fC, bzE13 s c sB cB t fC, bzE14 s c sB cB t fC, bzE15 s c sB cB t fC,
    bzE16 s c sB cB t fC, bzE17 s c sB cB t fC, bzE18 s c sB cB t fC, bzE19 s c sB cB t fC,
    fC 20, bzE21 s c sB cB t fC, bzE22 s c sB cB t fC, bzE23 s c sB cB t fC,
    bzE24 s c sB cB t fC, bzE25 s c sB cB t fC, fC 26, fC 27,
    bzE28 s c sB cB t fC, bzE29 s c sB cB t fC, bzE30 s c sB cB t fC, bzE31 s c sB cB t fC,
    bzE32 s c sB cB t fC, fC 33, fC 34, fC 35]

/-- `KFParticleBaseSIMD::TransportBz(b, t, p, e)`: transport of the particle
state by the path parameter `t = dS` in a uniform field `Bz = b`.  The sine and
cosine (`KFPMath::Sin/Cos`) are external math capabilities `sinF`, `cosF`; the
source constant `kOvSqr6 = 1/sqrt(6)` (which exists only over the reals) is the
parameter `kOvSqr6`.  The per-lane masked assignments on `b`, `sB`, `cB` (Taylor
small-angle fallback for `|bs| <= 1e-10`) become conditionals at lane width 1. -/
def transportBz (sinF cosF : K → K) (kOvSqr6 : K) (fQ : K) (fP : Fin 8 → K)
    (fC : Fin 36 → K) (b t : K) : (Fin 8 → K) × (Fin 36 → K) :=
  let b1 := b * fQ * kCLight
  let bs := b1 * t
  let s := sinF bs
  let c := cosF bs
  let localSmall : K := 1 / 10 ^ 10
  let b2 := if |bs| ≤ localSmall then localSmall else b1
  let sB := if localSmall < |bs| then s / b2
            else (1 - bs * kOvSqr6) * (1 + bs * kOvSqr6) * t
  let cB := if localSmall < |bs| then (1 - c) / b2 else (1 / 2) * sB * bs
  (bzMean s c sB cB t fP, bzCov s c sB cB t fC)

/-! ### Jacobian form of the Bz covariance transport

`TransportBz` documents (in its commented-out reference block) the 8x8 Jacobian
`mJ` of the helix map; the hand-expanded `e[36]` formulas are exactly the packed
form of `mJ * C * mJ^T`.  We verify that below and use it for the roundtrip
analysis. -/

def bzJ (s c sB cB t : K) : Matrix (Fin 8) (Fin 8) K :=
  Matrix.of
    ![![1, 0, 0, sB, cB, 0, 0, 0],
      ![0, 1, 0, -cB, sB, 0, 0, 0],
      ![0, 0, 1, 0, 0, t, 0, 0],
      ![0, 0, 0, c, s, 0, 0, 0],
      ![0, 0, 0, -s, c, 0, 0, 0],
      ![0, 0, 0, 0, 0, 1, 0, 0],
      ![0, 0, 0, 0, 0, 0, 1, 0],
      ![0, 0, 0, 0, 0, 0, 0, 1]]

/-- The packed output of `bzCov`, laid out as the symmetric 8x8 matrix. -/
def bzCovMat (s c sB cB t : K) (fC : Fin 36 → K) : Matrix (Fin 8) (Fin 8) K :=
  Matrix.of
    ![![bzE0 s c sB cB t fC, bzE1 s c sB cB t fC, bzE3 s c sB cB t fC, bzE6 s c sB cB t fC,
        bzE10 s c sB cB t fC, bzE15 s c sB cB t fC, bzE21 s c sB cB t fC, bzE28 s c sB cB t fC],
      ![bzE1 s c sB cB t fC, bzE2 s c sB cB t fC, bzE4 s c sB cB t fC, bzE7 s c sB cB t fC,
        bzE11 s c sB cB t fC, bzE16 s c sB cB t fC, bzE22 s c sB cB t fC, bzE29 s c sB cB t fC],
      ![bzE3 s c sB cB t fC, bzE4 s c sB cB t fC, bzE5 s c sB cB t fC, bzE8 s c sB cB t fC,
        bzE12 s c sB cB t fC, bzE17 s c sB cB t fC, bzE23 s c sB cB t fC, bzE30 s c sB cB t fC],
      ![bzE6 s c sB cB t fC, bzE7 s c sB cB t fC, bzE8 s c sB cB t fC, bzE9 s c sB cB t fC,
        bzE13 s c sB cB t fC, bzE18 s c sB cB t fC, bzE24 s c sB cB t fC, bzE31 s c sB cB t fC],
      ![bzE10 s c sB cB t fC, bzE11 s c sB cB t fC, bzE12 s c sB cB t fC, bzE13 s c sB cB t fC,
        bzE14 s c sB cB t fC, bzE19 s c sB cB t fC, bzE25 s c sB cB t fC, bzE32 s c sB cB t fC],
      ![bzE15 s c sB cB t fC, bzE16 s c sB cB t fC, bzE17 s c sB cB t fC, bzE18 s c sB cB t fC,
        bzE19 s c sB cB t fC, fC 20, fC 26, fC 33],
      ![bzE21 s c sB cB t fC, bzE22 s c sB cB t fC, bzE23 s c sB cB t fC, bzE24 s c sB cB t fC,
        bzE25 s c sB cB t fC, fC 26, fC 27, fC 34],
      ![bzE28 s c sB cB t fC, bzE29 s c sB cB t fC, bzE30 s c sB cB t fC, bzE31 s c sB cB t fC,
        bzE32 s c sB cB t fC, fC 33, fC 34, fC 35]]

/-- Eta-expansion of an 8-vector as a vector literal. -/
def vec8 (v : Fin 8 → K) : Fin 8 → K :=
  ![v 0, v 1, v 2, v 3, v 4, v 5, v 6, v 7]

/-- The identity matrix as an explicit literal. -/
def id8 : Matrix (Fin 8) (Fin 8) K :=
  Matrix.of
    ![![1, 0, 0, 0, 0, 0, 0, 0],
      ![0, 1, 0, 0, 0, 0, 0, 0],
      ![0, 0, 1, 0, 0, 0, 0, 0],
      ![0, 0, 0, 1, 0, 0, 0, 0],
      ![0, 0, 0, 0, 1, 0, 0, 0],
      ![0, 0, 0, 0, 0, 1, 0, 0],
      ![0, 0, 0, 0, 0, 0, 1, 0],
      ![0, 0, 0, 0, 0, 0, 0, 1]]

/-- A concrete rational test state (mean i ↦ i, covariance k ↦ k) for witnesses. -/
def stateP8 : Fin 8 → ℚ := fun i => ((i : ℕ) : ℚ)

def stateC36 : Fin 36 → ℚ := fun k => ((k : ℕ) : ℚ)

/-- Rational circle parametrization (tangent half-angle), used to instantiate the
external sine/cosine capabilities over `ℚ` in witnesses. -/
def sinQ (x : ℚ) : ℚ := 2 * x / (1 + x ^ 2)

def cosQ (x : ℚ) : ℚ := (1 - x ^ 2) / (1 + x ^ 2)

/-- The particle state of `KFParticleBaseSIMD`: mean `fP[8]`, packed covariance
`fC[36]`, charge `fQ`, degrees of freedom `fNDF` (held in a numeric lane by the
source but always integral; modelled as `Int`, with the source's
`int(fNDF[0]) < -1` cast comparison becoming an `Int` comparison), fit quality
`fChi2`, path length from the decay vertex `fSFromDecay`, the
representation-point flag `fAtProductionVertex`, linearization bookkeeping
(`fIsLinearized`, `fVtxGuess`), and mass bookkeeping (`fMassHypo`,
`SumDaughterMass`). -/
structure KFState (K : Type*) where
  P : Fin 8 → K
  C : Fin 36 → K
  Q : K
  NDF : Int
  chi2 : K
  sFromDecay : K
  atProductionVertex : Bool
  isLinearized : Bool
  vtxGuess : Fin 3 → K
  massHypo : K
  sumDaughterMass : K

/-- The `fNDF` bookkeeping of `KFParticleBaseSIMD::AddDaughter` and its three
`AddDaughterWithEnergy...` variants.  A fresh state (`int(fNDF[0]) < -1`) is
initialized by copying the first daughter and setting `fNDF = -1`; otherwise the
selected variant runs `maxIter` linearization iterations (3 when the vertex
guess must be bootstrapped, i.e. not linearized and not at the vertex guess,
else 1) and performs `fNDF += 2` on the final iteration only (all three
variants guard the update with `iter == maxIter-1`). -/
def addDaughterNdf (isLinearized isAtVtxGuess : Bool) (ndf : Int) : Int :=
  if ndf < -1 then -1
  else
    (List.range (if !isLinearized && !isAtVtxGuess then 3 else 1)).foldl
      (fun n iter =>
        if iter = (if !isLinearized && !isAtVtxGuess then 3 else 1) - 1 then n + 2 else n)
      ndf

/-- The quadratic-form variance `s` of `GetMass` (the momentum-energy block of
the covariance contracted with the mass-gradient). -/
def massVar (fP : Fin 8 → K) (fC : Fin 36 → K) : K :=
  fP 3 * fP 3 * fC 9 + fP 4 * fP 4 * fC 14 + fP 5 * fP 5 * fC 20 + fP 6 * fP 6 * fC 27
    + 2 * (fP 3 * fP 4 * fC 13 + fP 5 * (fP 3 * fC 18 + fP 4 * fC 19)
        - fP 6 * (fP 3 * fC 24 + fP 4 * fC 25 + fP 5 * fC 26))

/-- The squared-mass value `m2 = E^2 - p^2` of `GetMass`. -/
def m2of (fP : Fin 8 → K) : K := fP 6 * fP 6 - fP 3 * fP 3 - fP 4 * fP 4 - fP 5 * fP 5

/-- `KFParticleBaseSIMD::GetMass`: returns `(m, error, problem)` where `problem`
is the returned `!mask` of the source.  The negative-`m2` lanes take
`m = -sqrt(-m2)`; the error is `sqrt(s)/m` on good lanes and the sentinel
`1e20` on problem lanes. -/
def getMass (sqrtF : K → K) (fP : Fin 8 → K) (fC : Fin 36 → K) : K × K × Bool :=
  let s := massVar fP fC
  let m2 := m2of fP
  let m := if 0 ≤ m2 then sqrtF m2 else -sqrtF (-m2)
  if 0 ≤ m2 ∧ 0 ≤ s ∧ (1 : K) / 10 ^ 10 < m then (m, sqrtF s / m, false)
  else (m, 10 ^ 20, true)

/-- The pivot clamp of `KFParticleBaseSIMD::InvertCholetsky3`: the source first
sets lanes with `|uud| < 1e-12` to `1e-12`, then lanes with `|uud| < 1e-8` to
`1e-8`, before taking `d = uud/|uud|` and `sqrt(|uud|)`. -/
def clampPivot (uud : K) : K :=
  let u1 := if |uud| < 1 / 10 ^ 12 then 1 / 10 ^ 12 else uud
  if |u1| < 1 / 10 ^ 8 then 1 / 10 ^ 8 else u1

/-- `KFParticleBaseSIMD::InvertCholetsky3`: in-place inversion of a packed
symmetric 3x3 matrix via a modified (signed) Cholesky decomposition, the loops
of the source unrolled.  `sqrtF` is the external square-root capability. -/
def invertCholetsky3 (sqrtF : K → K) (a : Fin 6 → K) : Fin 6 → K :=
  let uud0 := clampPivot (a 0)
  let d0 := uud0 / |uud0|
  let u00 := sqrtF |uud0|
  let u01 := d0 / u00 * a 1
  let u02 := d0 / u00 * a 3
  let uud1 := clampPivot (a 2 - u01 * u01 * d0)
  let d1 := uud1 / |uud1|
  let u11 := sqrtF |uud1|
  let u12 := d1 / u11 * (a 4 - u01 * u02 * d0)
  let uud2 := clampPivot (a 5 - (u02 * u02 * d0 + u12 * u12 * d1))
  let d2 := uud2 / |uud2|
  let u22 := sqrtF |uud2|
  let w00 := 1 / u00
  let w11 := 1 / u11
  let w22 := 1 / u22
  let v01 := -(u01 * w00 * w11)
  let v12 := -(u12 * w11 * w22)
  let v02 := v01 * u11 * v12 - u02 * w00 * w22
  ![w00 * w00 * d0 + v01 * v01 * d1 + v02 * v02 * d2,
    v01 * w11 * d1 + v02 * v12 * d2,
    w11 * w11 * d1 + v12 * v12 * d2,
    v02 * w22 * d2,
    v12 * w22 * d2,
    w22 * w22 * d2]

/-- The linear/soft mass constraint `SetMassConstraint(Mass, SigmaMass)`: a
single Kalman update treating `m^2` as a scalar measurement (`SigmaMass = 0`
means a hard constraint).  `Cij(i,j)` of the source is `sym8`. -/
def setMassConstraint (sqrtF : K → K) (st : KFState K) (Mass SigmaMass : K) :
    KFState K :=
  let m2 := Mass * Mass
  let s2 := m2 * SigmaMass * SigmaMass
  let p2 := st.P 3 * st.P 3 + st.P 4 * st.P 4 + st.P 5 * st.P 5
  let e0 := sqrtF (m2 + p2)
  let mH : Fin 8 → K := ![0, 0, 0, -2 * st.P 3, -2 * st.P 4, -2 * st.P 5, 2 * st.P 6, 0]
  let zeta := m2 - (st.P 6 * st.P 6 - p2)
  let mCHt : Fin 8 → K := fun i => ∑ j, st.C (sym8 i j) * mH j
  let s2_est := ∑ i, mH i * mCHt i
  let w2 := 1 / (s2 + s2_est)
  { st with
    massHypo := Mass
    sumDaughterMass := Mass
    chi2 := st.chi2 + zeta * zeta * w2
    NDF := st.NDF + 1
    P := fun i => st.P i + mCHt i * w2 * zeta
    C := fun k => st.C k - mCHt (row36 k) * w2 * mCHt (col36 k) }

/-- Row index (i of `IJ(i,j)`) of the first 28 packed entries, as `Fin 7`. -/
def row28 : Fin 28 → Fin 7 :=
  ![0, 1, 1, 2, 2, 2, 3, 3, 3, 3, 4, 4, 4, 4, 4, 5, 5, 5, 5, 5, 5, 6, 6, 6, 6, 6, 6, 6]

/-- Column index of the first 28 packed entries, as `Fin 7`. -/
def col28 : Fin 28 → Fin 7 :=
  ![0, 0, 1, 0, 1, 2, 0, 1, 2, 3, 0, 1, 2, 3, 4, 0, 1, 2, 3, 4, 5, 0, 1, 2, 3, 4, 5, 6]

/-- The internal nonlinear mass-constraint solver
`SetMassConstraint(mP, mC, mJ, mass, mask)` of the source: a Lagrange
multiplier `lambda` on `E^2 - p^2 = m^2`, initialized from the linear and
quadratic closed forms, refined by exactly 100 Newton steps (each step masked
by `|df| > 1e-10`), then the rescaling `p /= (1-lambda)`, `E /= (1+lambda)`
applied to the mean and its 7x7 Jacobian `mJ` congruence applied to the packed
covariance block 0..27 (the loop updates only `IJ(i,j)` for i,j < 7).
The source computes `mCJ` fully from the original `mC` before updating. -/
def setMassConstraintNL (sqrtF : K → K) (mP : Fin 8 → K) (mC : Fin 36 → K)
    (mass : K) (mask : Bool) : (Fin 8 → K) × (Fin 36 → K) :=
  let energy2 := mP 6 * mP 6
  let p2 := mP 3 * mP 3 + mP 4 * mP 4 + mP 5 * mP 5
  let mass2 := mass * mass
  let a := energy2 - p2 + 2 * mass2
  let b := -2 * (energy2 + p2)
  let c := energy2 - p2 - mass2
  let l0 : K := if |b| > 1 / 10 ^ 10 then -c / b else 0
  let d := 4 * energy2 * p2 - mass2 * (energy2 - p2 - 2 * mass2)
  let l1 := if 0 ≤ d ∧ |a| > 1 / 10 ^ 10 then (energy2 + p2 - sqrtF d) / a else l0
  let l2 := if mP 6 < 0 then -1000000 else l1
  let newtonStep : K → K := fun lam =>
    let f := -mass2 * (lam * lam) * (lam * lam) + a * (lam * lam) + b * lam + c
    let df := -4 * mass2 * (lam * lam * lam) + 2 * a * lam + b
    if |df| > 1 / 10 ^ 10 then lam - f / df else lam
  let lambda := newtonStep^[100] l2
  let lpi := 1 / (1 + lambda)
  let lmi := 1 / (1 - lambda)
  let lp2i := lpi * lpi
  let lm2i := lmi * lmi
  let dfl := -4 * mass2 * (lambda * lambda * lambda) + 2 * a * lambda + b
  let dfx : Fin 4 → K :=
    ![-2 * (1 + lambda) * (1 + lambda) * mP 3,
      -2 * (1 + lambda) * (1 + lambda) * mP 4,
      -2 * (1 + lambda) * (1 + lambda) * mP 5,
      2 * (1 - lambda) * (1 - lambda) * mP 6]
  let dlx : Fin 4 → K := fun i => if |dfl| > 1 / 10 ^ 10 then -dfx i / dfl else 1
  let dxx : Fin 4 → K := ![mP 3 * lm2i, mP 4 * lm2i, mP 5 * lm2i, -(mP 6) * lp2i]
  let mJ : Fin 7 → Fin 7 → K :=
    ![![1, 0, 0, 0, 0, 0, 0],
      ![0, 1, 0, 0, 0, 0, 0],
      ![0, 0, 1, 0, 0, 0, 0],
      ![0, 0, 0, dlx 0 * dxx 0 + lmi, dlx 1 * dxx 0, dlx 2 * dxx 0, dlx 3 * dxx 0],
      ![0, 0, 0, dlx 0 * dxx 1, dlx 1 * dxx 1 + lmi, dlx 2 * dxx 1, dlx 3 * dxx 1],
      ![0, 0, 0, dlx 0 * dxx 2, dlx 1 * dxx 2, dlx 2 * dxx 2 + lmi, dlx 3 * dxx 2],
      ![0, 0, 0, dlx 0 * dxx 3, dlx 1 * dxx 3, dlx 2 * dxx 3, dlx 3 * dxx 3 + lpi]]
  let mCJ : Fin 7 → Fin 7 → K := fun i j =>
    ∑ k : Fin 7, mC (sym8 i.castSucc k.castSucc) * mJ j k
  let newP : Fin 8 → K :=
    if mask then ![mP 0, mP 1, mP 2, mP 3 * lmi, mP 4 * lmi, mP 5 * lmi, mP 6 * lpi, mP 7]
    else mP
  let newC : Fin 36 → K := fun idx =>
    if h : (idx : ℕ) < 28 then
      (if mask then ∑ l : Fin 7, mJ (row28 ⟨idx, h⟩) l * mCJ l (col28 ⟨idx, h⟩)
       else mC idx)
    else mC idx
  (newP, newC)

/-- `KFParticleBaseSIMD::SetNonlinearMassConstraint(mass)`: applies the internal
nonlinear solver to `(fP, fC)` with an all-true mask and records the mass
hypothesis.  It does not touch `fNDF` or `fChi2`. -/
def setNonlinearMassConstraint (sqrtF : K → K) (st : KFState K) (mass : K) :
    KFState K :=
  let r := setMassConstraintNL sqrtF st.P st.C mass true
  { st with P := r.1, C := r.2, massHypo := mass, sumDaughterMass := mass }

/-- A concrete rational state for counterexamples. -/
def exampleState : KFState ℚ :=
  { P := stateP8, C := stateC36, Q := 1, NDF := 5, chi2 := 7, sFromDecay := 2,
    atProductionVertex := true, isLinearized := false, vtxGuess := ![0, 0, 0],
    massHypo := -1, sumDaughterMass := 0 }

/-- `KFParticleBaseSIMD::GetArmenterosPodolanski`: computes the summed-momentum
direction, the daughters' longitudinal components `plp`, `pln`, the transverse
component `qt` and the asymmetry `alpha`, then stores `qt & mask` and
`alpha & mask` where `mask = (|sp| < 1e-10) & (|pn| < 1e-10)` (the
degenerate-input predicate).  The bitwise AND of a lane value with a lane mask
is exactly 0 on false lanes under every SIMD mask representation; it is
modelled as `if mask then value else 0` (on true lanes this is the value, which
only makes the code look better than the bit pattern it actually produces). -/
def getArmenterosPodolanski (sqrtF : K → K) (positive negative : Fin 8 → K) :
    K × K :=
  let spx := positive 3 + negative 3
  let spy := positive 4 + negative 4
  let spz := positive 5 + negative 5
  let sp := sqrtF (spx * spx + spy * spy + spz * spz)
  let pn := sqrtF (negative 3 * negative 3 + negative 4 * negative 4
    + negative 5 * negative 5)
  let pp := sqrtF (positive 3 * positive 3 + positive 4 * positive 4
    + positive 5 * positive 5)
  let pln := (negative 3 * spx + negative 4 * spy + negative 5 * spz) / sp
  let plp := (positive 3 * spx + positive 4 * spy + positive 5 * spz) / sp
  let ptm := 1 - pln / pn * (pln / pn)
  let qt := if 0 ≤ ptm then pn * sqrtF ptm else 0
  let alpha := (plp - pln) / (plp + pln)
  (if |sp| < 1 / 10 ^ 10 ∧ |pn| < 1 / 10 ^ 10 then qt else 0,
   if |sp| < 1 / 10 ^ 10 ∧ |pn| < 1 / 10 ^ 10 then alpha else 0)

/-- Modelled from the spec and the claim's words: the direct Armenteros-Podolanski
computation from the same input momenta — `alpha = (pl_plus - pl_minus) /
(pl_plus + pl_minus)` and `qt = p_minus * sqrt(1 - (pl_minus/p_minus)^2)`, the
longitudinal components taken along the summed-momentum direction. -/
def apDirect (sqrtF : K → K) (positive negative : Fin 8 → K) : K × K :=
  let spx := positive 3 + negative 3
  let spy := positive 4 + negative 4
  let spz := positive 5 + negative 5
  let sp := sqrtF (spx * spx + spy * spy + spz * spz)
  let pn := sqrtF (negative 3 * negative 3 + negative 4 * negative 4
    + negative 5 * negative 5)
  let pln := (negative 3 * spx + negative 4 * spy + negative 5 * spz) / sp
  let plp := (positive 3 * spx + positive 4 * spy + positive 5 * spz) / sp
  (pn * sqrtF (1 - pln / pn * (pln / pn)), (plp - pln) / (plp + pln))

/-- An exact rational square root on the values needed by the Armenteros
counterexample input. -/
def sqrtQdemo : ℚ → ℚ := fun x => if x = 9 then 3 else if x = 4 then 2 else if x = 1 then 1 else 0

/-- Positive daughter of the Armenteros counterexample: momentum (2,0,0). -/
def apPos : Fin 8 → ℚ := ![0, 0, 0, 2, 0, 0, 2, 0]

/-- Negative daughter of the Armenteros counterexample: momentum (1,0,0). -/
def apNeg : Fin 8 → ℚ := ![0, 0, 0, 1, 0, 0, 1, 0]

/-- `KFParticleBaseSIMD::TransportToDS(dS)`: transport the state in place by
the virtual `Transport` (a field-model capability here) and accumulate `dS`
into `fSFromDecay`. -/
def transportToDS
    (transportFn : (Fin 8 → K) → (Fin 36 → K) → K → (Fin 8 → K) × (Fin 36 → K))
    (st : KFState K) (dS : K) : KFState K :=
  let r := transportFn st.P st.C dS
  { st with P := r.1, C := r.2, sFromDecay := st.sFromDecay + dS }

/-- `KFParticleBaseSIMD::Convert(ToProduction)`: fold the decay-length row and
column of the covariance into the spatial block using the momentum direction
and the charge-scaled local field (`fieldFn` is the external `GetFieldValue`
capability).  Only `fC` changes; the source updates `fC[28..33]` in place and
reads the updated values in later lines, modelled by the `c28..c33` bindings. -/
def convert (fieldFn : (Fin 8 → K) → Fin 3 → K) (st : KFState K)
    (toProduction : Bool) : KFState K :=
  let fld : Fin 3 → K := fun i => fieldFn st.P i * (st.Q * kCLight)
  let h0 := if toProduction then -(st.P 3) else st.P 3
  let h1 := if toProduction then -(st.P 4) else st.P 4
  let h2 := if toProduction then -(st.P 5) else st.P 5
  let h3 := h1 * fld 2 - h2 * fld 1
  let h4 := h2 * fld 0 - h0 * fld 2
  let h5 := h0 * fld 1 - h1 * fld 0
  let c28 := st.C 28 + h0 * st.C 35
  let c29 := st.C 29 + h1 * st.C 35
  let c30 := st.C 30 + h2 * st.C 35
  let c31 := st.C 31 + h3 * st.C 35
  let c32 := st.C 32 + h4 * st.C 35
  let c33 := st.C 33 + h5 * st.C 35
  { st with C :=
      ![st.C 0 + h0 * (c28 + st.C 28),
        st.C 1 + h1 * c28 + h0 * st.C 29,
        st.C 2 + h1 * (c29 + st.C 29),
        st.C 3 + h2 * c28 + h0 * st.C 30,
        st.C 4 + h2 * c29 + h1 * st.C 30,
        st.C 5 + h2 * (c30 + st.C 30),
        st.C 6 + h3 * c28 + h0 * st.C 31,
        st.C 7 + h3 * c29 + h1 * st.C 31,
        st.C 8 + h3 * c30 + h2 * st.C 31,
        st.C 9 + h3 * (c31 + st.C 31),
        st.C 10 + h4 * c28 + h0 * st.C 32,
        st.C 11 + h4 * c29 + h1 * st.C 32,
        st.C 12 + h4 * c30 + h2 * st.C 32,
        st.C 13 + h4 * c31 + h3 * st.C 32,
        st.C 14 + h4 * (c32 + st.C 32),
        st.C 15 + h5 * c28 + h0 * st.C 33,
        st.C 16 + h5 * c29 + h1 * st.C 33,
        st.C 17 + h5 * c30 + h2 * st.C 33,
        st.C 18 + h5 * c31 + h3 * st.C 33,
        st.C 19 + h5 * c32 + h4 * st.C 33,
        st.C 20 + h5 * (c33 + st.C 33),
        st.C 21 + h0 * st.C 34,
        st.C 22 + h1 * st.C 34,
        st.C 23 + h2 * st.C 34,
        st.C 24 + h3 * st.C 34,
        st.C 25 + h4 * st.C 34,
        st.C 26 + h5 * st.C 34,
        st.C 27,
        c28, c29, c30, c31, c32, c33, st.C 34, st.C 35] }

/-- `KFParticleBaseSIMD::TransportToDecayVertex`: transport by `-fSFromDecay`,
convert the covariance back to the decay representation if the state was at its
production vertex, and clear the flag. -/
def transportToDecayVertex (fieldFn : (Fin 8 → K) → Fin 3 → K)
    (transportFn : (Fin 8 → K) → (Fin 36 → K) → K → (Fin 8 → K) × (Fin 36 → K))
    (st : KFState K) : KFState K :=
  let st1 := transportToDS transportFn st (-st.sFromDecay)
  let st2 := if st1.atProductionVertex then convert fieldFn st1 false else st1
  { st2 with atProductionVertex := false }

/-- `KFParticleBaseSIMD::SubtractFromVertex(Vtx)`: Kalman downdate of a vertex
by this particle's measurement (`measure` is the virtual `GetMeasurement`
capability of the particle, called at the vertex guess or at the vertex
position).  The chi2-decrease sanity guard of the source is the constant-true
lane mask `float_v(1.f > 0.f)`; the masked `mask & (...)` contributions are
modelled as `if (1:K) > 0 then ... else 0`.  The vertex `fNDF` is decremented
by 2 unconditionally. -/
def subtractFromVertex (sqrtF : K → K)
    (measure : (Fin 3 → K) → (Fin 8 → K) × (Fin 36 → K)) (vtx : KFState K) :
    KFState K :=
  let mm := if vtx.isLinearized then measure vtx.vtxGuess
            else measure ![vtx.P 0, vtx.P 1, vtx.P 2]
  let m := mm.1
  let mCm := mm.2
  let mS := invertCholetsky3 sqrtF
    ![mCm 0 - vtx.C 0, mCm 1 - vtx.C 1, mCm 2 - vtx.C 2,
      mCm 3 - vtx.C 3, mCm 4 - vtx.C 4, mCm 5 - vtx.C 5]
  let zeta0 := m 0 - vtx.P 0
  let zeta1 := m 1 - vtx.P 1
  let zeta2 := m 2 - vtx.P 2
  let mCHt0 : Fin 3 → K := ![vtx.C 0, vtx.C 1, vtx.C 3]
  let mCHt1 : Fin 3 → K := ![vtx.C 1, vtx.C 2, vtx.C 4]
  let mCHt2 : Fin 3 → K := ![vtx.C 3, vtx.C 4, vtx.C 5]
  let k0 : Fin 3 → K := fun i => mCHt0 i * mS 0 + mCHt1 i * mS 1 + mCHt2 i * mS 3
  let k1 : Fin 3 → K := fun i => mCHt0 i * mS 1 + mCHt1 i * mS 2 + mCHt2 i * mS 4
  let k2 : Fin 3 → K := fun i => mCHt0 i * mS 3 + mCHt1 i * mS 4 + mCHt2 i * mS 5
  let dChi2 := -((mS 0 * zeta0 + mS 1 * zeta1 + mS 3 * zeta2) * zeta0)
    - (mS 1 * zeta0 + mS 2 * zeta1 + mS 4 * zeta2) * zeta1
    - (mS 3 * zeta0 + mS 4 * zeta1 + mS 5 * zeta2) * zeta2
  { vtx with
    P := ![vtx.P 0 - (if (1 : K) > 0 then k0 0 * zeta0 + k1 0 * zeta1 + k2 0 * zeta2 else 0),
           vtx.P 1 - (if (1 : K) > 0 then k0 1 * zeta0 + k1 1 * zeta1 + k2 1 * zeta2 else 0),
           vtx.P 2 - (if (1 : K) > 0 then k0 2 * zeta0 + k1 2 * zeta1 + k2 2 * zeta2 else 0),
           vtx.P 3, vtx.P 4, vtx.P 5, vtx.P 6, vtx.P 7]
    C := fun k =>
      if k = 0 then vtx.C 0 + (if (1 : K) > 0 then k0 0 * mCHt0 0 + k1 0 * mCHt1 0 + k2 0 * mCHt2 0 else 0)
      else if k = 1 then vtx.C 1 + (if (1 : K) > 0 then k0 1 * mCHt0 0 + k1 1 * mCHt1 0 + k2 1 * mCHt2 0 else 0)
      else if k = 2 then vtx.C 2 + (if (1 : K) > 0 then k0 1 * mCHt0 1 + k1 1 * mCHt1 1 + k2 1 * mCHt2 1 else 0)
      else if k = 3 then vtx.C 3 + (if (1 : K) > 0 then k0 2 * mCHt0 0 + k1 2 * mCHt1 0 + k2 2 * mCHt2 0 else 0)
      else if k = 4 then vtx.C 4 + (if (1 : K) > 0 then k0 2 * mCHt0 1 + k1 2 * mCHt1 1 + k2 2 * mCHt2 1 else 0)
      else if k = 5 then vtx.C 5 + (if (1 : K) > 0 then k0 2 * mCHt0 2 + k1 2 * mCHt1 2 + k2 2 * mCHt2 2 else 0)
      else vtx.C k
    NDF := vtx.NDF - 2
    chi2 := vtx.chi2 + (if (1 : K) > 0 then dChi2 else 0) }

/-- Modelled from the spec: `SubtractFromVertex` with the downdate applied
unconditionally ("implement as specified (always apply)"), i.e. the same
computation with no lane mask on the updates. -/
def subtractFromVertexAlways (sqrtF : K → K)
    (measure : (Fin 3 → K) → (Fin 8 → K) × (Fin 36 → K)) (vtx : KFState K) :
    KFState K :=
  let mm := if vtx.isLinearized then measure vtx.vtxGuess
            else measure ![vtx.P 0, vtx.P 1, vtx.P 2]
  let m := mm.1
  let mCm := mm.2
  let mS := invertCholetsky3 sqrtF
    ![mCm 0 - vtx.C 0, mCm 1 - vtx.C 1, mCm 2 - vtx.C 2,
      mCm 3 - vtx.C 3, mCm 4 - vtx.C 4, mCm 5 - vtx.C 5]
  let zeta0 := m 0 - vtx.P 0
  let zeta1 := m 1 - vtx.P 1
  let zeta2 := m 2 - vtx.P 2
  let mCHt0 : Fin 3 → K := ![vtx.C 0, vtx.C 1, vtx.C 3]
  let mCHt1 : Fin 3 → K := ![vtx.C 1, vtx.C 2, vtx.C 4]
  let mCHt2 : Fin 3 → K := ![vtx.C 3, vtx.C 4, vtx.C 5]
  let k0 : Fin 3 → K := fun i => mCHt0 i * mS 0 + mCHt1 i * mS 1 + mCHt2 i * mS 3
  let k1 : Fin 3 → K := fun i => mCHt0 i * mS 1 + mCHt1 i * mS 2 + mCHt2 i * mS 4
  let k2 : Fin 3 → K := fun i => mCHt0 i * mS 3 + mCHt1 i * mS 4 + mCHt2 i * mS 5
  let dChi2 := -((mS 0 * zeta0 + mS 1 * zeta1 + mS 3 * zeta2) * zeta0)
    - (mS 1 * zeta0 + mS 2 * zeta1 + mS 4 * zeta2) * zeta1
    - (mS 3 * zeta0 + mS 4 * zeta1 + mS 5 * zeta2) * zeta2
  { vtx with
    P := ![vtx.P 0 - (k0 0 * zeta0 + k1 0 * zeta1 + k2 0 * zeta2),
           vtx.P 1 - (k0 1 * zeta0 + k1 1 * zeta1 + k2 1 * zeta2),
           vtx.P 2 - (k0 2 * zeta0 + k1 2 * zeta1 + k2 2 * zeta2),
           vtx.P 3, vtx.P 4, vtx.P 5, vtx.P 6, vtx.P 7]
    C := fun k =>
      if k = 0 then vtx.C 0 + (k0 0 * mCHt0 0 + k1 0 * mCHt1 0 + k2 0 * mCHt2 0)
      else if k = 1 then vtx.C 1 + (k0 1 * mCHt0 0 + k1 1 * mCHt1 0 + k2 1 * mCHt2 0)
      else if k = 2 then vtx.C 2 + (k0 1 * mCHt0 1 + k1 1 * mCHt1 1 + k2 1 * mCHt2 1)
      else if k = 3 then vtx.C 3 + (k0 2 * mCHt0 0 + k1 2 * mCHt1 0 + k2 2 * mCHt2 0)
      else if k = 4 then vtx.C 4 + (k0 2 * mCHt0 1 + k1 2 * mCHt1 1 + k2 2 * mCHt2 1)
      else if k = 5 then vtx.C 5 + (k0 2 * mCHt0 2 + k1 2 * mCHt1 2 + k2 2 * mCHt2 2)
      else vtx.C k
    NDF := vtx.NDF - 2
    chi2 := vtx.chi2 + dChi2 }

/-- Bridge facts rewriting small Fin literals to their canonical mk form, used to
evaluate packed-array lookups inside proofs. -/
lemma fin8b2 : (2 : Fin 8) = ⟨2, by omega⟩ := rfl

lemma fin8b3 : (3 : Fin 8) = ⟨3, by omega⟩ := rfl

lemma fin8b4 : (4 : Fin 8) = ⟨4, by omega⟩ := rfl

lemma fin8b5 : (5 : Fin 8) = ⟨5, by omega⟩ := rfl

lemma fin8b6 : (6 : Fin 8) = ⟨6, by omega⟩ := rfl

lemma fin8b7 : (7 : Fin 8) = ⟨7, by omega⟩ := rfl

lemma fin36b2 : (2 : Fin 36) = ⟨2, by omega⟩ := rfl

lemma fin36b3 : (3 : Fin 36) = ⟨3, by omega⟩ := rfl

lemma fin36b4 : (4 : Fin 36) = ⟨4, by omega⟩ := rfl

lemma fin36b5 : (5 : Fin 36) = ⟨5, by omega⟩ := rfl

lemma fin36b6 : (6 : Fin 36) = ⟨6, by omega⟩ := rfl

lemma fin36b7 : (7 : Fin 36) = ⟨7, by omega⟩ := rfl

lemma fin36b8 : (8 : Fin 36) = ⟨8, by omega⟩ := rfl

lemma fin36b9 : (9 : Fin 36) = ⟨9, by omega⟩ := rfl

lemma fin36b10 : (10 : Fin 36) = ⟨10, by omega⟩ := rfl

lemma fin36b11 : (11 : Fin 36) = ⟨11, by omega⟩ := rfl

lemma fin36b12 : (12 : Fin 36) = ⟨12, by omega⟩ := rfl

lemma fin36b13 : (13 : Fin 36) = ⟨13, by omega⟩ := rfl

lemma fin36b14 : (14 : Fin 36) = ⟨14, by omega⟩ := rfl

lemma fin36b15 : (15 : Fin 36) = ⟨15, by omega⟩ := rfl

lemma fin36b16 : (16 : Fin 36) = ⟨16, by omega⟩ := rfl

lemma fin36b17 : (17 : Fin 36) = ⟨17, by omega⟩ := rfl

lemma fin36b18 : (18 : Fin 36) = ⟨18, by omega⟩ := rfl

lemma fin36b19 : (19 : Fin 36) = ⟨19, by omega⟩ := rfl

lemma fin36b20 : (20 : Fin 36) = ⟨20, by omega⟩ := rfl

lemma fin36b21 : (21 : Fin 36) = ⟨21, by omega⟩ := rfl

lemma fin36b22 : (22 : Fin 36) = ⟨22, by omega⟩ := rfl

lemma fin36b23 : (23 : Fin 36) = ⟨23, by omega⟩ := rfl

lemma fin36b24 : (24 : Fin 36) = ⟨24, by omega⟩ := rfl

lemma fin36b25 : (25 : Fin 36) = ⟨25, by omega⟩ := rfl

lemma fin36b26 : (26 : Fin 36) = ⟨26, by omega⟩ := rfl

lemma fin36b27 : (27 : Fin 36) = ⟨27, by omega⟩ := rfl

lemma fin36b28 : (28 : Fin 36) = ⟨28, by omega⟩ := rfl

lemma fin36b29 : (29 : Fin 36) = ⟨29, by omega⟩ := rfl

lemma fin36b30 : (30 : Fin 36) = ⟨30, by omega⟩ := rfl

lemma fin36b31 : (31 : Fin 36) = ⟨31, by omega⟩ := rfl

lemma fin36b32 : (32 : Fin 36) = ⟨32, by omega⟩ := rfl

lemma fin36b33 : (33 : Fin 36) = ⟨33, by omega⟩ := rfl

lemma fin36b34 : (34 : Fin 36) = ⟨34, by omega⟩ := rfl

lemma fin36b35 : (35 : Fin 36) = ⟨35, by omega⟩ := rfl

/-- The table `sym8` agrees with the source formula `IJ(i,j) = (j<=i) ? i(i+1)/2+j : j(j+1)/2+i`. -/
lemma sym8_eq_IJ : ∀ i j : Fin 8,
    (sym8 i j : ℕ) = if (j : ℕ) ≤ (i : ℕ)
      then (i : ℕ) * ((i : ℕ) + 1) / 2 + (j : ℕ)
      else (j : ℕ) * ((j : ℕ) + 1) / 2 + (i : ℕ) := by
  decide

lemma sym8_symm : ∀ i j : Fin 8, sym8 i j = sym8 j i := by decide

lemma sym8_row_col : ∀ k : Fin 36, sym8 (row36 k) (col36 k) = k := by decide

lemma unpack_agrees_sym8 (C : Fin 36 → K) : ∀ i j, unpack C i j = C (sym8 i j) := by
  intro i j
  fin_cases i <;> fin_cases j <;> rfl

lemma unpack_row_col (C : Fin 36 → K) : ∀ k, unpack C (row36 k) (col36 k) = C k := by
  intro k
  fin_cases k <;> rfl

lemma unpack_injective : Function.Injective (unpack (K := K)) := by
  intro C D h
  funext k
  have h2 := congrFun (congrFun h (row36 k)) (col36 k)
  rwa [unpack_row_col, unpack_row_col] at h2

set_option maxHeartbeats 1000000 in
lemma unpack_bzCov_eq_mat (s c sB cB t : K) (fC : Fin 36 → K) :
    unpack (bzCov s c sB cB t fC) = bzCovMat s c sB cB t fC := by
  ext i j
  fin_cases i <;> fin_cases j <;>
    simp only [unpack, bzCovMat, bzCov, Matrix.of_apply, Matrix.cons_val_zero,
      Matrix.cons_val_one, Matrix.head_cons, Matrix.cons_val_succ, Matrix.cons_val_succ',
      Matrix.cons_val_zero',
      fin36b2, fin36b3, fin36b4, fin36b5, fin36b6, fin36b7, fin36b8, fin36b9, fin36b10,
      fin36b11, fin36b12, fin36b13, fin36b14, fin36b15, fin36b16, fin36b17, fin36b18,
      fin36b19, fin36b20, fin36b21, fin36b22, fin36b23, fin36b24, fin36b25, fin36b26,
      fin36b27, fin36b28, fin36b29, fin36b30, fin36b31, fin36b32, fin36b33, fin36b34,
      fin36b35]

set_option maxHeartbeats 1000000 in
lemma bzCovMat_eq (s c sB cB t : K) (fC : Fin 36 → K) :
    bzCovMat s c sB cB t fC
      = bzJ s c sB cB t * unpack fC * (bzJ s c sB cB t).transpose := by
  ext i j
  fin_cases i <;> fin_cases j <;>
    simp only [bzCovMat, unpack, bzJ, Matrix.of_apply, Matrix.mul_apply,
      Matrix.transpose_apply, Fin.sum_univ_eight, Matrix.cons_val_zero, Matrix.cons_val_one,
      Matrix.head_cons, Matrix.cons_val_succ, Matrix.cons_val_succ', Matrix.cons_val_zero',
      fin8b2, fin8b3, fin8b4, fin8b5, fin8b6, fin8b7, bzE0, bzE1, bzE2, bzE3, bzE4, bzE5,
      bzE6, bzE7, bzE8, bzE9, bzE10, bzE11, bzE12, bzE13, bzE14, bzE15, bzE16, bzE17, bzE18,
      bzE19, bzE21, bzE22, bzE23, bzE24, bzE25, bzE28, bzE29, bzE30, bzE31, bzE32,
      mJC13, mJC14, mJC23, mJC24, mJC33, mJC34, mJC43, mJC44,
      zero_mul, one_mul, mul_zero, mul_one, add_zero, zero_add, neg_mul, mul_neg,
      neg_zero] <;>
    ring1

/-- The hand-expanded covariance update of `TransportBz` is the congruence
`C ↦ J C J^T` by the documented Jacobian. -/
lemma unpack_bzCov (s c sB cB t : K) (fC : Fin 36 → K) :
    unpack (bzCov s c sB cB t fC)
      = bzJ s c sB cB t * unpack fC * (bzJ s c sB cB t).transpose :=
  (unpack_bzCov_eq_mat s c sB cB t fC).trans (bzCovMat_eq s c sB cB t fC)

lemma vec8_eta (v : Fin 8 → K) : vec8 v = v := by
  funext i
  fin_cases i <;> rfl

lemma bzMean_eq_mulVec (s c sB cB t : K) (fP : Fin 8 → K) :
    bzMean s c sB cB t fP = (bzJ s c sB cB t).mulVec (vec8 fP) := by
  funext i
  fin_cases i <;>
    simp only [bzMean, bzJ, vec8, Matrix.mulVec, Matrix.dotProduct, Matrix.of_apply,
      Fin.sum_univ_eight, Matrix.cons_val_zero, Matrix.cons_val_one, Matrix.head_cons,
      Matrix.cons_val_succ, Matrix.cons_val_succ', Matrix.cons_val_zero',
      fin8b2, fin8b3, fin8b4, fin8b5, fin8b6, fin8b7,
      zero_mul, one_mul, mul_zero, mul_one, add_zero, zero_add, neg_mul, mul_neg,
      neg_zero] <;>
    ring1

lemma id8_eq_one : (id8 : Matrix (Fin 8) (Fin 8) K) = 1 := by
  ext i j
  fin_cases i <;> fin_cases j <;>
    simp only [id8, Matrix.one_apply, Matrix.of_apply, Matrix.cons_val_zero,
      Matrix.cons_val_one, Matrix.head_cons, Matrix.cons_val_succ, Matrix.cons_val_succ',
      Matrix.cons_val_zero'] <;>
    norm_num [Fin.ext_iff]

set_option maxHeartbeats 1000000 in
/-- Inverse-Jacobian identity for the Bz helix map: the Jacobian at the reversed
angle data composes with the forward one to the identity, given the circle
identities relating `s`, `c`, `sB`, `cB`. -/
lemma bzJ_inv_mul (s c sB cB t : K) (h1 : s ^ 2 + c ^ 2 = 1)
    (h2 : sB * (1 - c) = cB * s) (h3 : cB * (1 + c) = sB * s) :
    bzJ (-s) c (-sB) cB (-t) * bzJ s c sB cB t = 1 := by
  rw [← id8_eq_one]
  ext i j
  fin_cases i <;> fin_cases j <;>
    simp only [bzJ, id8, Matrix.of_apply, Matrix.mul_apply, Fin.sum_univ_eight,
      Matrix.cons_val_zero, Matrix.cons_val_one, Matrix.head_cons, Matrix.cons_val_succ,
      Matrix.cons_val_succ', Matrix.cons_val_zero',
      fin8b2, fin8b3, fin8b4, fin8b5, fin8b6, fin8b7,
      zero_mul, one_mul, mul_zero, mul_one, add_zero, zero_add, neg_mul, mul_neg,
      neg_zero] <;>
    first
      | ring1
      | linear_combination h1
      | linear_combination -h1
      | linear_combination h2
      | linear_combination -h2
      | linear_combination h3
      | linear_combination -h3

set_option maxHeartbeats 1000000 in
/-- The straight-line transport formulas are the uniform-Bz formulas evaluated at
zero bend angle: `s = 0`, `c = 1`, `sB = dS`, `cB = 0`, `t = dS`. -/
lemma transportLine_eq_bz (fP : Fin 8 → K) (fC : Fin 36 → K) (dS : K) :
    transportLine fP fC dS = (bzMean 0 1 dS 0 dS fP, bzCov 0 1 dS 0 dS fC) := by
  refine Prod.ext ?_ ?_ <;> funext k <;> fin_cases k <;>
    simp only [transportLine, bzMean, bzCov, Matrix.cons_val_zero, Matrix.cons_val_one,
      Matrix.head_cons, Matrix.cons_val_succ, Matrix.cons_val_succ', Matrix.cons_val_zero',
      bzE0, bzE1, bzE2, bzE3, bzE4, bzE5, bzE6, bzE7, bzE8, bzE9, bzE10, bzE11,
      bzE12, bzE13, bzE14, bzE15, bzE16, bzE17, bzE18, bzE19, bzE21, bzE22, bzE23, bzE24,
      bzE25, bzE28, bzE29, bzE30, bzE31, bzE32,
      mJC13, mJC14, mJC23, mJC24, mJC33, mJC34, mJC43, mJC44] <;>
    ring1

/-- Roundtrip of the Bz mean map: transporting the mean with the sign-reversed
angle data undoes the forward transport, given the circle identities. -/
lemma bz_roundtrip_mean (s c sB cB t : K) (fP : Fin 8 → K) (h1 : s ^ 2 + c ^ 2 = 1)
    (h2 : sB * (1 - c) = cB * s) (h3 : cB * (1 + c) = sB * s) :
    bzMean (-s) c (-sB) cB (-t) (bzMean s c sB cB t fP) = fP := by
  rw [bzMean_eq_mulVec, vec8_eta, bzMean_eq_mulVec, Matrix.mulVec_mulVec,
    bzJ_inv_mul s c sB cB t h1 h2 h3, Matrix.one_mulVec, vec8_eta]

/-- Roundtrip of the Bz covariance map. -/
lemma bz_roundtrip_cov (s c sB cB t : K) (fC : Fin 36 → K) (h1 : s ^ 2 + c ^ 2 = 1)
    (h2 : sB * (1 - c) = cB * s) (h3 : cB * (1 + c) = sB * s) :
    bzCov (-s) c (-sB) cB (-t) (bzCov s c sB cB t fC) = fC := by
  have hJ := bzJ_inv_mul s c sB cB t h1 h2 h3
  apply unpack_injective
  rw [unpack_bzCov, unpack_bzCov]
  have key : bzJ (-s) c (-sB) cB (-t)
        * (bzJ s c sB cB t * unpack fC * (bzJ s c sB cB t).transpose)
        * (bzJ (-s) c (-sB) cB (-t)).transpose
      = (bzJ (-s) c (-sB) cB (-t) * bzJ s c sB cB t) * unpack fC
        * ((bzJ s c sB cB t).transpose * (bzJ (-s) c (-sB) cB (-t)).transpose) := by
    noncomm_ring
  rw [key, ← Matrix.transpose_mul, hJ, Matrix.transpose_one, Matrix.one_mul, Matrix.mul_one]

lemma bzJ_zero : bzJ (0 : K) 1 0 0 0 = id8 := by
  ext i j
  fin_cases i <;> fin_cases j <;>
    simp only [bzJ, id8, Matrix.of_apply, Matrix.cons_val_zero, Matrix.cons_val_one,
      Matrix.head_cons, Matrix.cons_val_succ, Matrix.cons_val_succ', Matrix.cons_val_zero',
      neg_zero]

lemma bzMean_id (fP : Fin 8 → K) : bzMean 0 1 0 0 0 fP = fP := by
  rw [bzMean_eq_mulVec, bzJ_zero, id8_eq_one, Matrix.one_mulVec, vec8_eta]

lemma bzCov_id (fC : Fin 36 → K) : bzCov 0 1 0 0 0 fC = fC := by
  apply unpack_injective
  rw [unpack_bzCov, bzJ_zero, id8_eq_one, Matrix.transpose_one, Matrix.one_mul,
    Matrix.mul_one]

/-- Branch unfolding of `transportBz` on lanes with `|bs| > 1e-10` (the closed
trigonometric branch). -/
lemma transportBz_of_big (sinF cosF : K → K) (kOvSqr6 fQ : K) (fP : Fin 8 → K)
    (fC : Fin 36 → K) (b t : K)
    (hbig : (1 : K) / 10 ^ 10 < |b * fQ * kCLight * t|) :
    transportBz sinF cosF kOvSqr6 fQ fP fC b t
      = (bzMean (sinF (b * fQ * kCLight * t)) (cosF (b * fQ * kCLight * t))
          (sinF (b * fQ * kCLight * t) / (b * fQ * kCLight))
          ((1 - cosF (b * fQ * kCLight * t)) / (b * fQ * kCLight)) t fP,
        bzCov (sinF (b * fQ * kCLight * t)) (cosF (b * fQ * kCLight * t))
          (sinF (b * fQ * kCLight * t) / (b * fQ * kCLight))
          ((1 - cosF (b * fQ * kCLight * t)) / (b * fQ * kCLight)) t fC) := by
  have hnot : ¬ (|b * fQ * kCLight * t| ≤ (1 : K) / 10 ^ 10) := not_le.mpr hbig
  simp only [transportBz, if_neg hnot, if_pos hbig]

/-- Branch unfolding of `transportBz` on lanes with bend angle exactly zero (the
Taylor small-angle branch, which at `bs = 0` degenerates to `sB = t`, `cB = 0`). -/
lemma transportBz_of_zero (sinF cosF : K → K) (kOvSqr6 fQ : K) (fP : Fin 8 → K)
    (fC : Fin 36 → K) (b t : K) (h0 : b * fQ * kCLight * t = 0) :
    transportBz sinF cosF kOvSqr6 fQ fP fC b t
      = (bzMean (sinF 0) (cosF 0) t 0 t fP, bzCov (sinF 0) (cosF 0) t 0 t fC) := by
  have hsmall : (0 : K) ≤ 1 / 10 ^ 10 := by norm_num
  have hnotlt : ¬ ((1 : K) / 10 ^ 10 < 0) := by norm_num
  simp only [transportBz, h0, abs_zero, if_pos hsmall, if_neg hnotlt,
    zero_mul, mul_zero, sub_zero, add_zero, one_mul, mul_one]

lemma one_add_sq_ne (x : ℚ) : 1 + x ^ 2 ≠ 0 := by positivity

lemma sinQ_odd : ∀ x : ℚ, sinQ (-x) = -sinQ x := by
  intro x
  unfold sinQ
  rw [neg_pow]
  ring

lemma cosQ_even : ∀ x : ℚ, cosQ (-x) = cosQ x := by
  intro x
  unfold cosQ
  rw [neg_pow]
  norm_num

lemma sinQ_cosQ_pyth : ∀ x : ℚ, sinQ x ^ 2 + cosQ x ^ 2 = 1 := by
  intro x
  unfold sinQ cosQ
  field_simp
  ring

lemma cosQ_zero : cosQ 0 = 1 := by
  unfold cosQ
  norm_num

/-- C1: for every particle state, transporting by the path parameter dS = 0
returns the state unchanged, in both field models: the straight-line
`TransportLine` and the uniform-field `TransportBz` (whose sine/cosine
capability must return sin 0 = 0 and cos 0 = 1) reproduce the input mean and
packed covariance exactly. -/
theorem C1_transport_zero_identity (sinF cosF : K → K) (kOvSqr6 fQ b : K)
    (fP : Fin 8 → K) (fC : Fin 36 → K)
    (hs0 : sinF 0 = 0) (hc0 : cosF 0 = 1) :
    transportLine fP fC 0 = (fP, fC)
      ∧ transportBz sinF cosF kOvSqr6 fQ fP fC b 0 = (fP, fC) := by
  constructor
  · rw [transportLine_eq_bz, bzMean_id, bzCov_id]
  · rw [transportBz_of_zero sinF cosF kOvSqr6 fQ fP fC b 0 (mul_zero _), hs0, hc0,
      bzMean_id, bzCov_id]

/-- Witness for C1 at a concrete rational state. -/
theorem C1_transport_zero_identity_witness :
    ((fun _ : ℚ => (0 : ℚ)) 0 = 0) ∧ ((fun _ : ℚ => (1 : ℚ)) 0 = 1)
      ∧ (transportLine stateP8 stateC36 0
            = (stateP8, stateC36)
          ∧ transportBz (fun _ => 0) (fun _ => 1) 0 5 stateP8
              stateC36 3 0
            = (stateP8, stateC36)) :=
  ⟨rfl, rfl,
    C1_transport_zero_identity (fun _ => 0) (fun _ => 1) 0 5 3 _ _ rfl rfl⟩

set_option maxHeartbeats 1000000 in
set_option maxRecDepth 8000 in
/-- C2 (amended): the transport roundtrip `Transport(Transport(S, dS), -dS) = S`
is exact in exact field arithmetic for the straight-line model at every dS, and
for the uniform-Bz model whenever the bend angle `bs = B·q·c_light·dS` is zero
or above the small-angle threshold (`|bs| > 1e-10`, the closed trigonometric
branch) — the sine/cosine capability being odd/even and on the unit circle.  On
the Taylor fallback branch (`0 < |bs| ≤ 1e-10`) the roundtrip is NOT exact; see
the counterexample. -/
theorem C2_transport_roundtrip_amended (sinF cosF : K → K) (kOvSqr6 fQ b t : K)
    (fP : Fin 8 → K) (fC : Fin 36 → K)
    (hodd : ∀ x, sinF (-x) = -sinF x)
    (heven : ∀ x, cosF (-x) = cosF x)
    (hpyth : ∀ x, sinF x ^ 2 + cosF x ^ 2 = 1)
    (hc0 : cosF 0 = 1)
    (hbs : b * fQ * kCLight * t = 0 ∨ (1 : K) / 10 ^ 10 < |b * fQ * kCLight * t|) :
    transportBz sinF cosF kOvSqr6 fQ
        (transportBz sinF cosF kOvSqr6 fQ fP fC b t).1
        (transportBz sinF cosF kOvSqr6 fQ fP fC b t).2 b (-t) = (fP, fC)
      ∧ transportLine (transportLine fP fC t).1 (transportLine fP fC t).2 (-t)
        = (fP, fC) := by
  have hs0 : sinF 0 = 0 := by
    have h := hodd 0
    rw [neg_zero] at h
    linarith
  constructor
  · rcases hbs with h0 | hbig
    · have h0' : b * fQ * kCLight * (-t) = 0 := by rw [mul_neg, h0, neg_zero]
      rw [transportBz_of_zero sinF cosF kOvSqr6 fQ fP fC b t h0,
        transportBz_of_zero sinF cosF kOvSqr6 fQ _ _ b (-t) h0', hs0, hc0]
      have hm := bz_roundtrip_mean (K := K) 0 1 t 0 t fP (by norm_num) (by ring) (by ring)
      have hcv := bz_roundtrip_cov (K := K) 0 1 t 0 t fC (by norm_num) (by ring) (by ring)
      rw [neg_zero] at hm hcv
      exact Prod.ext hm hcv
    · have hbig' : (1 : K) / 10 ^ 10 < |b * fQ * kCLight * (-t)| := by
        rw [mul_neg, abs_neg]
        exact hbig
      rw [transportBz_of_big sinF cosF kOvSqr6 fQ fP fC b t hbig,
        transportBz_of_big sinF cosF kOvSqr6 fQ _ _ b (-t) hbig', mul_neg,
        hodd, heven, neg_div]
      have h1 := hpyth (b * fQ * kCLight * t)
      have h2 : sinF (b * fQ * kCLight * t) / (b * fQ * kCLight)
            * (1 - cosF (b * fQ * kCLight * t))
          = (1 - cosF (b * fQ * kCLight * t)) / (b * fQ * kCLight)
            * sinF (b * fQ * kCLight * t) := by
        ring
      have h3 : (1 - cosF (b * fQ * kCLight * t)) / (b * fQ * kCLight)
            * (1 + cosF (b * fQ * kCLight * t))
          = sinF (b * fQ * kCLight * t) / (b * fQ * kCLight)
            * sinF (b * fQ * kCLight * t) := by
        linear_combination (-(1 / (b * fQ * kCLight))) * h1
      exact Prod.ext
        (bz_roundtrip_mean _ _ _ _ _ _ h1 h2 h3)
        (bz_roundtrip_cov _ _ _ _ _ _ h1 h2 h3)
  · have hm := bz_roundtrip_mean (K := K) 0 1 t 0 t fP (by norm_num) (by ring) (by ring)
    have hcv := bz_roundtrip_cov (K := K) 0 1 t 0 t fC (by norm_num) (by ring) (by ring)
    rw [neg_zero] at hm hcv
    rw [transportLine_eq_bz fP fC t, transportLine_eq_bz _ _ (-t)]
    exact Prod.ext hm hcv

/-- Witness for the amended C2 on the closed trigonometric branch: rational
state, unit scaled field (`b·q·kCLight = 1`), dS = 1, sine/cosine given by the
rational half-angle circle parametrization. -/
theorem C2_transport_roundtrip_amended_witness :
    ((1000000000000 / 299792458 : ℚ) * 1 * kCLight * 1 = 0
        ∨ (1 : ℚ) / 10 ^ 10 < |(1000000000000 / 299792458 : ℚ) * 1 * kCLight * 1|)
      ∧ (transportBz sinQ cosQ 0 1
            (transportBz sinQ cosQ 0 1 stateP8 stateC36
              (1000000000000 / 299792458) 1).1
            (transportBz sinQ cosQ 0 1 stateP8 stateC36
              (1000000000000 / 299792458) 1).2
            (1000000000000 / 299792458) (-1)
          = (stateP8, stateC36)
        ∧ transportLine
            (transportLine stateP8 stateC36 1).1
            (transportLine stateP8 stateC36 1).2 (-1)
          = (stateP8, stateC36)) :=
  ⟨Or.inr (by rw [kCLight]; norm_num),
    C2_transport_roundtrip_amended sinQ cosQ 0 1 (1000000000000 / 299792458) 1 _ _
      sinQ_odd cosQ_even sinQ_cosQ_pyth cosQ_zero
      (Or.inr (by rw [kCLight]; norm_num))⟩

/-- Small-angle (Taylor) branch unfolding of the mean output of `transportBz`. -/
lemma transportBz_fst_of_small (sinF cosF : K → K) (kOvSqr6 fQ : K) (fP : Fin 8 → K)
    (fC : Fin 36 → K) (b t : K)
    (hsmall : |b * fQ * kCLight * t| ≤ (1 : K) / 10 ^ 10) :
    (transportBz sinF cosF kOvSqr6 fQ fP fC b t).1
      = bzMean (sinF (b * fQ * kCLight * t)) (cosF (b * fQ * kCLight * t))
          ((1 - b * fQ * kCLight * t * kOvSqr6) * (1 + b * fQ * kCLight * t * kOvSqr6) * t)
          ((1 / 2) * ((1 - b * fQ * kCLight * t * kOvSqr6)
            * (1 + b * fQ * kCLight * t * kOvSqr6) * t) * (b * fQ * kCLight * t)) t fP := by
  have hnotlt : ¬ ((1 : K) / 10 ^ 10 < |b * fQ * kCLight * t|) := not_lt.mpr hsmall
  simp only [transportBz, if_pos hsmall, if_neg hnotlt]

/-- The Taylor-branch roundtrip defect `(1 - cos x) - (x/2)·sin x` is strictly
positive for `0 < x ≤ 1`. -/
lemma taylor_defect_pos (x : ℝ) (hx : 0 < x) (hx1 : x ≤ 1) :
    0 < (1 - Real.cos x) - x / 2 * Real.sin x := by
  have hxabs : |x| ≤ 1 := by rw [abs_of_pos hx]; exact hx1
  have hcos := (abs_le.mp (Real.cos_bound hxabs)).2
  have hsin := (abs_le.mp (Real.sin_bound hxabs)).2
  rw [abs_of_pos hx] at hcos hsin
  have h4 : (0 : ℝ) < x ^ 4 := pow_pos hx 4
  have h54 : x ^ 5 ≤ x ^ 4 := pow_le_pow_of_le_one hx.le hx1 (by norm_num)
  have hmul : x / 2 * Real.sin x ≤ x / 2 * (x - x ^ 3 / 6 + x ^ 4 * (5 / 96)) := by
    apply mul_le_mul_of_nonneg_left _ (by positivity)
    linarith
  have hexp : x / 2 * (x - x ^ 3 / 6 + x ^ 4 * (5 / 96))
      = x ^ 2 / 2 - x ^ 4 / 12 + x ^ 5 * (5 / 192) := by ring
  rw [hexp] at hmul
  linarith

/-- Counterexample to C2 as stated: on the Taylor small-angle branch
(here `bs = q·B·c_light·dS = 1e-10` exactly, a charged particle in a weak field),
the roundtrip `TransportBz(dS = 1)` then `TransportBz(dS = -1)` does NOT return
the original state in exact real arithmetic: the x-coordinate of the mean moves
by `sB·((1 - cos bs) - (bs/2)·sin bs) > 0`. -/
theorem C2_transport_roundtrip_counterexample :
    ¬ (transportBz Real.sin Real.cos (1 / Real.sqrt 6) 1
        (transportBz Real.sin Real.cos (1 / Real.sqrt 6) 1
          (![0, 0, 0, 1, 0, 0, 0, 0] : Fin 8 → ℝ) (fun _ => (0 : ℝ))
          (100 / 299792458) 1).1
        (transportBz Real.sin Real.cos (1 / Real.sqrt 6) 1
          (![0, 0, 0, 1, 0, 0, 0, 0] : Fin 8 → ℝ) (fun _ => (0 : ℝ))
          (100 / 299792458) 1).2
        (100 / 299792458) (-1)
      = (![0, 0, 0, 1, 0, 0, 0, 0], fun _ => (0 : ℝ))) := by
  intro h
  have hbs : (100 / 299792458 : ℝ) * 1 * kCLight * 1 = 1 / 10 ^ 10 := by
    rw [kCLight]; norm_num
  have hbs2 : (100 / 299792458 : ℝ) * 1 * kCLight * (-1) = -(1 / 10 ^ 10) := by
    rw [kCLight]; norm_num
  have hsm : |(100 / 299792458 : ℝ) * 1 * kCLight * 1| ≤ (1 : ℝ) / 10 ^ 10 := by
    rw [hbs, abs_of_pos (by norm_num)]
  have hsm2 : |(100 / 299792458 : ℝ) * 1 * kCLight * (-1)| ≤ (1 : ℝ) / 10 ^ 10 := by
    rw [hbs2, abs_neg, abs_of_pos (by norm_num)]
  have h0 := congrFun (congrArg Prod.fst h) 0
  rw [transportBz_fst_of_small _ _ _ _ _ _ _ _ hsm2] at h0
  rw [transportBz_fst_of_small _ _ _ _ _ _ _ _ hsm] at h0
  rw [hbs, hbs2] at h0
  rw [Real.sin_neg, Real.cos_neg] at h0
  simp only [bzMean, Matrix.cons_val_zero, Matrix.cons_val_one, Matrix.head_cons,
    Matrix.cons_val_succ, Matrix.cons_val_succ', Matrix.cons_val_zero',
    fin8b2, fin8b3, fin8b4, fin8b5, fin8b6, fin8b7,
    zero_mul, one_mul, mul_zero, mul_one, add_zero, zero_add, neg_mul, mul_neg,
    neg_zero, neg_neg, sub_zero] at h0
  have hk : ((1 : ℝ) / Real.sqrt 6) ^ 2 = 1 / 6 := by
    rw [div_pow, one_pow, Real.sq_sqrt (by norm_num : (0 : ℝ) ≤ 6)]
  have hdef := taylor_defect_pos (1 / 10 ^ 10) (by norm_num) (by norm_num)
  have hSpos : (0 : ℝ) < 1 - (1 / 10 ^ 10) ^ 2 * (1 / 6) := by norm_num
  have key : ((1 : ℝ) - (1 / 10 ^ 10) ^ 2 * (1 / 6))
      * ((1 - Real.cos (1 / 10 ^ 10)) - (1 / 10 ^ 10) / 2 * Real.sin (1 / 10 ^ 10)) = 0 := by
    linear_combination h0 + ((1 / 10 ^ 10 : ℝ) ^ 2
      * (1 - Real.cos (1 / 10 ^ 10) - (1 / 10 ^ 10) / 2 * Real.sin (1 / 10 ^ 10))) * hk
  have hpos := mul_pos hSpos hdef
  linarith

/-! ### The particle state and the estimator operations -/

/-- A fresh state (`ndf < -1`) is reset to `ndf = -1` by `AddDaughter`. -/
lemma addDaughterNdf_fresh (lin vg : Bool) (ndf : Int) (h : ndf < -1) :
    addDaughterNdf lin vg ndf = -1 := by
  unfold addDaughterNdf
  rw [if_pos h]

/-- A non-fresh state gains exactly 2 degrees of freedom per daughter,
whatever the linearization flags: the `fNDF += 2` guarded by
`iter == maxIter-1` fires exactly once in the iteration loop. -/
lemma addDaughterNdf_step (lin vg : Bool) (ndf : Int) (h : -1 ≤ ndf) :
    addDaughterNdf lin vg ndf = ndf + 2 := by
  unfold addDaughterNdf
  rw [if_neg (by omega)]
  cases lin <;> cases vg <;> simp [List.range_succ]

/-- Iterating `AddDaughter` `j` times from a non-fresh state adds `2 j`. -/
lemma addDaughterNdf_iter (lin vg : Bool) (j : ℕ) (ndf : Int) (h : -1 ≤ ndf) :
    (fun n => addDaughterNdf lin vg n)^[j] ndf = ndf + 2 * (j : Int) := by
  induction j generalizing ndf with
  | zero => simp
  | succ j ih =>
      simp only [Function.iterate_succ_apply]
      rw [addDaughterNdf_step lin vg ndf h, ih (ndf + 2) (by omega)]
      push_cast
      ring

/-- C3: starting from a fresh state (`ndf = -3`), `k ≥ 1` `AddDaughter` calls
leave `ndf = 2k - 3` (the first add resets to `-1`, each later add contributes
`+2` on its final iteration only); starting from an already-constrained state
with `ndf = 0`, `k` adds leave `ndf = 2k`.  This holds for every combination of
the linearization flags (which only choose `maxIter ∈ {1, 3}`). -/
theorem C3_add_daughter_ndf (lin vg : Bool) (k : ℕ) (hk : 1 ≤ k) :
    (fun n => addDaughterNdf lin vg n)^[k] (-3) = 2 * (k : Int) - 3 ∧
    (fun n => addDaughterNdf lin vg n)^[k] 0 = 2 * (k : Int) := by
  obtain ⟨j, rfl⟩ : ∃ j, k = j + 1 := ⟨k - 1, by omega⟩
  constructor
  · simp only [Function.iterate_succ_apply]
    rw [addDaughterNdf_fresh lin vg (-3) (by norm_num),
      addDaughterNdf_iter lin vg j (-1) (by norm_num)]
    push_cast
    ring
  · rw [addDaughterNdf_iter lin vg (j + 1) 0 (by norm_num)]
    push_cast
    ring

/-- C3, witnessed at `k = 2` with both flags false (`maxIter = 3`). -/
theorem C3_add_daughter_ndf_witness :
    (fun n => addDaughterNdf false false n)^[2] (-3) = 1 ∧
    (fun n => addDaughterNdf false false n)^[2] 0 = 4 := by
  have h := C3_add_daughter_ndf false false 2 (by norm_num)
  norm_num at h
  exact h

/-- C4 (amended): only the linear/soft constraint `SetMassConstraint(Mass,
SigmaMass)` increments `fNDF` by 1 and accumulates `fChi2` by the weighted
squared scalar mass residual; `SetNonlinearMassConstraint` leaves both `fNDF`
and `fChi2` unchanged. -/
theorem C4_mass_constraint_bookkeeping_amended (sqrtF : K → K) (st : KFState K)
    (M S m : K) :
    (setMassConstraint sqrtF st M S).NDF = st.NDF + 1 ∧
    (∃ w2 : K, (setMassConstraint sqrtF st M S).chi2
        = st.chi2 + (M * M - (st.P 6 * st.P 6
            - (st.P 3 * st.P 3 + st.P 4 * st.P 4 + st.P 5 * st.P 5)))
          * (M * M - (st.P 6 * st.P 6
            - (st.P 3 * st.P 3 + st.P 4 * st.P 4 + st.P 5 * st.P 5))) * w2) ∧
    (setNonlinearMassConstraint sqrtF st m).NDF = st.NDF ∧
    (setNonlinearMassConstraint sqrtF st m).chi2 = st.chi2 := by
  exact ⟨rfl, ⟨_, rfl⟩, rfl, rfl⟩

/-- C4 counterexample: on a concrete state with `ndf = 5`, `chi2 = 7`, the
nonlinear constraint leaves both untouched, refuting "every mass-constraint
application increments ndf by exactly 1". -/
theorem C4_nonlinear_constraint_counterexample :
    (setNonlinearMassConstraint (fun x : ℚ => x) exampleState 1).NDF = 5 ∧
    (setNonlinearMassConstraint (fun x : ℚ => x) exampleState 1).chi2 = 7 ∧
    (setNonlinearMassConstraint (fun x : ℚ => x) exampleState 1).NDF
      ≠ exampleState.NDF + 1 := by
  have h1 : (setNonlinearMassConstraint (fun x : ℚ => x) exampleState 1).NDF = 5 := rfl
  refine ⟨h1, rfl, ?_⟩
  rw [h1]
  decide

/-- C5 (amended): the two-stage pivot clamp of `InvertCholetsky3` is the
one-stage clamp to the constant `1e-8`: a pivot of magnitude below `1e-8` is
replaced by the positive floor `1e-8` regardless of its sign (the `1e-12`
stage is subsumed because `|1e-12| < 1e-8`), and larger pivots pass through
unchanged.  In particular the clamp does not preserve the sign of a negative
near-zero pivot. -/
theorem C5_cholesky_pivot_clamp_amended (uud : K) :
    clampPivot uud = if |uud| < 1 / 10 ^ 8 then 1 / 10 ^ 8 else uud := by
  unfold clampPivot
  by_cases h1 : |uud| < 1 / 10 ^ 12
  · rw [if_pos h1]
    have hp : |(1 / 10 ^ 12 : K)| < 1 / 10 ^ 8 := by
      rw [abs_of_pos (by positivity)]
      rw [div_lt_div_iff (by positivity) (by positivity)]
      norm_num
    have hr : |uud| < 1 / 10 ^ 8 := lt_trans h1 (by
      rw [div_lt_div_iff (by positivity) (by positivity)]
      norm_num)
    rw [if_pos hp, if_pos hr]
  · rw [if_neg h1]

/-- C5 counterexample: the negative near-zero pivot `-1e-9` is clamped to the
positive value `1e-8`, flipping its sign (the claim says the replacement
preserves the sign of the original pivot). -/
theorem C5_cholesky_pivot_clamp_counterexample :
    clampPivot (-1 / 10 ^ 9 : ℚ) = 1 / 10 ^ 8 ∧
    ¬ clampPivot (-1 / 10 ^ 9 : ℚ) < 0 := by
  have habs : |(-1 / 10 ^ 9 : ℚ)| = 1 / 10 ^ 9 := by
    rw [abs_of_neg (by norm_num)]
    norm_num
  have h1 : ¬ (|(-1 / 10 ^ 9 : ℚ)| < 1 / 10 ^ 12) := by
    rw [habs]
    norm_num
  have h2 : |(-1 / 10 ^ 9 : ℚ)| < 1 / 10 ^ 8 := by
    rw [habs]
    norm_num
  have he : clampPivot (-1 / 10 ^ 9 : ℚ) = 1 / 10 ^ 8 := by
    simp only [clampPivot]
    rw [if_neg h1, if_pos h2]
  refine ⟨he, ?_⟩
  rw [he]
  norm_num

/-- C6: the degeneracy mask of `GetArmenterosPodolanski` is inverted — the
stored results are `qt & mask` and `alpha & mask` with
`mask = (|sp| < 1e-10) & (|pn| < 1e-10)`, so every NON-degenerate input gets
`(0, 0)` instead of the direct Armenteros-Podolanski values.  On momenta
`p+ = (2,0,0)`, `p- = (1,0,0)` the direct computation gives
`(qt, alpha) = (0, 1/3)` but the function returns `(0, 0)`. -/
theorem C6_armenteros_inverted_mask :
    getArmenterosPodolanski sqrtQdemo apPos apNeg = (0, 0) ∧
    apDirect sqrtQdemo apPos apNeg = (0, 1 / 3) ∧
    getArmenterosPodolanski sqrtQdemo apPos apNeg
      ≠ apDirect sqrtQdemo apPos apNeg := by
  have p3 : apPos 3 = 2 := rfl
  have p4 : apPos 4 = 0 := rfl
  have p5 : apPos 5 = 0 := rfl
  have n3 : apNeg 3 = 1 := rfl
  have n4 : apNeg 4 = 0 := rfl
  have n5 : apNeg 5 = 0 := rfl
  have e1 : getArmenterosPodolanski sqrtQdemo apPos apNeg = (0, 0) := by
    simp only [getArmenterosPodolanski, p3, p4, p5, n3, n4, n5]
    norm_num [sqrtQdemo, abs_lt]
  have e2 : apDirect sqrtQdemo apPos apNeg = (0, 1 / 3) := by
    simp only [apDirect, p3, p4, p5, n3, n4, n5]
    norm_num [sqrtQdemo]
  refine ⟨e1, e2, ?_⟩
  rw [e1, e2]
  intro hx
  rw [Prod.mk.injEq] at hx
  norm_num at hx

/-- C7: for a non-physical state with `E^2 < p^2`, `GetMass` returns the mass
value `-sqrt(p^2 - E^2)` (the negative of the square root of `|m^2|`) and
flags the problem mask. -/
theorem C7_nonphysical_mass_negative_sqrt (sqrtF : K → K) (fP : Fin 8 → K)
    (fC : Fin 36 → K)
    (h : fP 6 * fP 6 < fP 3 * fP 3 + fP 4 * fP 4 + fP 5 * fP 5) :
    (getMass sqrtF fP fC).1
      = -sqrtF (fP 3 * fP 3 + fP 4 * fP 4 + fP 5 * fP 5 - fP 6 * fP 6) ∧
    (getMass sqrtF fP fC).2.2 = true := by
  have hm2 : m2of fP < 0 := by
    simp only [m2of]
    linarith
  have hne : ¬ (0 ≤ m2of fP) := not_le.mpr hm2
  have hc : ¬ (0 ≤ m2of fP ∧ 0 ≤ massVar fP fC ∧ (1 : K) / 10 ^ 10
      < (if 0 ≤ m2of fP then sqrtF (m2of fP) else -sqrtF (-(m2of fP)))) :=
    fun hx => hne hx.1
  have hg : getMass sqrtF fP fC = (-sqrtF (-(m2of fP)), 10 ^ 20, true) := by
    simp only [getMass]
    rw [if_neg hc, if_neg hne]
  rw [hg]
  refine ⟨?_, rfl⟩
  have hx : -(m2of fP) = fP 3 * fP 3 + fP 4 * fP 4 + fP 5 * fP 5 - fP 6 * fP 6 := by
    simp only [m2of]
    ring
  rw [hx]

/-- C7, witnessed on `p = (2,0,0)`, `E = 1` with the identity square-root
capability: the returned mass is `-(4 - 1) = -3`. -/
theorem C7_nonphysical_mass_negative_sqrt_witness :
    (getMass (fun x : ℚ => x) ![0, 0, 0, 2, 0, 0, 1, 0] stateC36).1 = -3 ∧
    (getMass (fun x : ℚ => x) ![0, 0, 0, 2, 0, 0, 1, 0] stateC36).2.2 = true := by
  have v3 : (![0, 0, 0, 2, 0, 0, 1, 0] : Fin 8 → ℚ) 3 = 2 := rfl
  have v4 : (![0, 0, 0, 2, 0, 0, 1, 0] : Fin 8 → ℚ) 4 = 0 := rfl
  have v5 : (![0, 0, 0, 2, 0, 0, 1, 0] : Fin 8 → ℚ) 5 = 0 := rfl
  have v6 : (![0, 0, 0, 2, 0, 0, 1, 0] : Fin 8 → ℚ) 6 = 1 := rfl
  have h := C7_nonphysical_mass_negative_sqrt (fun x : ℚ => x)
    ![0, 0, 0, 2, 0, 0, 1, 0] stateC36 (by
      rw [v3, v4, v5, v6]
      norm_num)
  refine ⟨?_, h.2⟩
  rw [h.1, v3, v4, v5, v6]
  norm_num

/-- C8: `TransportToDS(dS)` adds `dS` to `fSFromDecay`, and after
`TransportToDecayVertex` (which transports by `-fSFromDecay`; the in-place
`Convert` touches only the covariance) the accumulated `fSFromDecay` is
exactly 0, for every field model and transport capability. -/
theorem C8_transport_to_decay_vertex_sfromdecay
    (fieldFn : (Fin 8 → K) → Fin 3 → K)
    (transportFn : (Fin 8 → K) → (Fin 36 → K) → K → (Fin 8 → K) × (Fin 36 → K))
    (st : KFState K) (dS : K) :
    (transportToDS transportFn st dS).sFromDecay = st.sFromDecay + dS ∧
    (transportToDecayVertex fieldFn transportFn st).sFromDecay = 0 := by
  refine ⟨rfl, ?_⟩
  obtain ⟨P, C, Qc, NDF, chi2, sfd, apv, lin, vg, mh, sdm⟩ := st
  cases apv
  · show sfd + -sfd = 0
    ring
  · show sfd + -sfd = 0
    ring

/-- C9: the chi2-decrease sanity guard of `SubtractFromVertex` is the constant
true mask `float_v(1.f > 0.f)`, so the downdate of the vertex position,
covariance and chi2 coincides with the unconditional (always-apply) variant on
every input, and the vertex `fNDF` is decremented by exactly 2. -/
theorem C9_subtract_from_vertex_unconditional (sqrtF : K → K)
    (measure : (Fin 3 → K) → (Fin 8 → K) × (Fin 36 → K)) (vtx : KFState K) :
    subtractFromVertex sqrtF measure vtx
      = subtractFromVertexAlways sqrtF measure vtx ∧
    (subtractFromVertex sqrtF measure vtx).NDF = vtx.NDF - 2 := by
  have h1 : (0 : K) < 1 := one_pos
  refine ⟨?_, rfl⟩
  simp only [subtractFromVertex, subtractFromVertexAlways, gt_iff_lt, if_pos h1]

/-- C10: for EVERY state, `GetMass` flags failure (problem mask true) exactly
when the good-lane condition `0 ≤ m^2 ∧ 0 ≤ s ∧ 1e-10 < m` fails — so in
particular whenever `m^2 < 0`, whenever the propagated variance `s < 0`, and
whenever the returned mass is at most `1e-10` — and whenever it flags failure
the error is the sentinel `1e20`; in particular an exactly massless state
(`m^2 = 0`, so the returned mass is `sqrt 0 = 0 ≤ 1e-10`) is always flagged
with error `1e20` although its returned mass value 0 is valid. -/
theorem C10_getmass_failure_flag (sqrtF : K → K) (fP : Fin 8 → K)
    (fC : Fin 36 → K) :
    ((getMass sqrtF fP fC).2.2 = true
      ↔ ¬ (0 ≤ m2of fP ∧ 0 ≤ massVar fP fC
            ∧ (1 : K) / 10 ^ 10 < (getMass sqrtF fP fC).1)) ∧
    ((getMass sqrtF fP fC).2.2 = true → (getMass sqrtF fP fC).2.1 = 10 ^ 20) ∧
    (m2of fP = 0 → sqrtF 0 = 0 →
      (getMass sqrtF fP fC).1 = 0 ∧
      (getMass sqrtF fP fC).2.2 = true ∧ (getMass sqrtF fP fC).2.1 = 10 ^ 20) := by
  by_cases hc : 0 ≤ m2of fP ∧ 0 ≤ massVar fP fC ∧ (1 : K) / 10 ^ 10
      < (if 0 ≤ m2of fP then sqrtF (m2of fP) else -sqrtF (-(m2of fP)))
  · have hg : getMass sqrtF fP fC
        = ((if 0 ≤ m2of fP then sqrtF (m2of fP) else -sqrtF (-(m2of fP))),
           sqrtF (massVar fP fC)
             / (if 0 ≤ m2of fP then sqrtF (m2of fP) else -sqrtF (-(m2of fP))),
           false) := by
      simp only [getMass]
      rw [if_pos hc]
    rw [hg]
    refine ⟨iff_of_false (by simp) (not_not_intro hc), fun h => absurd h (by simp), ?_⟩
    intro hm2 hs0
    exfalso
    have h3 := hc.2.2
    rw [hm2, if_pos le_rfl, hs0] at h3
    exact absurd h3 (not_lt.mpr (by positivity))
  · have hg : getMass sqrtF fP fC
        = ((if 0 ≤ m2of fP then sqrtF (m2of fP) else -sqrtF (-(m2of fP))),
           10 ^ 20, true) := by
      simp only [getMass]
      rw [if_neg hc]
    rw [hg]
    refine ⟨iff_of_true rfl hc, fun _ => rfl, ?_⟩
    intro hm2 hs0
    refine ⟨?_, rfl, rfl⟩
    rw [hm2, if_pos le_rfl, hs0]

/-- C10, witnessed on the massless state `p = (0,0,1)`, `E = 1` with a
square-root capability sending 0 to 0. -/
theorem C10_getmass_failure_flag_witness :
    (getMass (fun _ : ℚ => 0) ![0, 0, 0, 0, 0, 1, 1, 0] stateC36).2.2 = true ∧
    (getMass (fun _ : ℚ => 0) ![0, 0, 0, 0, 0, 1, 1, 0] stateC36).2.1 = 10 ^ 20 := by
  have w3 : (![0, 0, 0, 0, 0, 1, 1, 0] : Fin 8 → ℚ) 3 = 0 := rfl
  have w4 : (![0, 0, 0, 0, 0, 1, 1, 0] : Fin 8 → ℚ) 4 = 0 := rfl
  have w5 : (![0, 0, 0, 0, 0, 1, 1, 0] : Fin 8 → ℚ) 5 = 1 := rfl
  have w6 : (![0, 0, 0, 0, 0, 1, 1, 0] : Fin 8 → ℚ) 6 = 1 := rfl
  have h := (C10_getmass_failure_flag (fun _ : ℚ => 0)
    ![0, 0, 0, 0, 0, 1, 1, 0] stateC36).2.2 (by
      simp only [m2of, w3, w4, w5, w6]
      norm_num) rfl
  exact ⟨h.2.1, h.2.2⟩

end KFParticleSpec
